import Mathlib

/-!
Shallow embedding of `kernel/memory/src/area_frame_allocator.rs` (Theseus):
the boot-time physical-frame allocator.  Machine integers (`usize`, `u64`)
are modelled as `Nat`; `usize` subtraction is modelled as truncated `Nat`
subtraction.  Fallible operations return `Except`/`Option`; methods that
mutate `self` take and return the allocator state explicitly.
-/

set_option maxRecDepth 8192

namespace Theseus

/-- Modelled from the spec: `kernel_config::memory::PAGE_SIZE`, the fixed
page size; section 8 of the spec fixes it at `0x1000` bytes.  The constant
itself is defined outside the sourced file. -/
def PAGE_SIZE : Nat := 0x1000

/-- Modelled from the spec: the external `Frame` type (a physical frame,
identified by its number; ordered and stepped by its number).  The type is
defined outside the sourced file; the spec only needs its ordering and
arithmetic contracts. -/
structure Frame where
  number : Nat
deriving DecidableEq, Repr

/-- Modelled from the spec: `Frame::containing_address`, the frame holding a
given physical address: address divided by the page size. -/
def Frame.containing_address (address : Nat) : Frame :=
  ⟨address / PAGE_SIZE⟩

/-- Modelled from the spec: `Frame::start_address`, the first physical
address of a frame. -/
def Frame.start_address (f : Frame) : Nat :=
  f.number * PAGE_SIZE

/-- Modelled from the spec: `FrameRange::new(first, last)`, an inclusive
range of frames.  `last` is the inclusive upper bound. -/
structure FrameRange where
  start : Frame
  last : Frame
deriving DecidableEq, Repr

/-- Modelled from the spec: the external region descriptor
`PhysicalMemoryArea { base_addr, size_in_bytes, typ }`, where `typ == 1`
denotes usable memory. -/
structure PhysicalMemoryArea where
  base_addr : Nat
  size_in_bytes : Nat
  typ : Nat
deriving DecidableEq, Repr

/-- `VectorArray<T>`: "a stand-in for a Union" — either a bounded array
(`(count, [T; 32])`, modelled as the count plus the backing list, whose
length plays the role of the fixed capacity `arr.len()`) or a growable
vector. -/
inductive VectorArray (T : Type) where
  | Array : Nat → List T → VectorArray T
  | Vector : List T → VectorArray T
deriving DecidableEq, Repr

/-- The logical elements of a `VectorArray`: the Rust code iterates
`arr.iter().take(count)` in `Array` mode and `v.iter()` in `Vector` mode;
every method of the source matches on the two representations and runs the
same logic over exactly these elements. -/
def VectorArray.elems : VectorArray T → List T
  | .Array count arr => arr.take count
  | .Vector v => v

/-- `VectorArray::upgrade_to_vector`: copies the first `count` slots of the
array into a vector, in order; a no-op on a vector. -/
def VectorArray.upgrade_to_vector : VectorArray T → VectorArray T
  | .Array count arr => .Vector (arr.take count)
  | .Vector v => .Vector v

/-- `StaticArrayStack<usize>`: a statically allocated stack backed by a
128-element array plus a length.  The backing list's length plays the role
of the fixed capacity `arr.len()`; the source only instantiates `T = usize`,
modelled as `Nat`. -/
structure StaticArrayStack where
  arr : List Nat
  len : Nat
deriving DecidableEq, Repr

/-- `StaticArrayStack::new`: a zeroed 128-element array with length 0. -/
def StaticArrayStack.new : StaticArrayStack :=
  { arr := List.replicate 128 0, len := 0 }

/-- `StaticArrayStack::push_back`: write at index `len` and increment `len`
if below capacity; otherwise drop the value (diagnostic only). -/
def StaticArrayStack.push_back (st : StaticArrayStack) (value : Nat) : StaticArrayStack :=
  if st.len < st.arr.length then
    { arr := st.arr.set st.len value, len := st.len + 1 }
  else
    st

/-- `StaticArrayStack::pop_back`: `None` when empty; otherwise decrement
`len` and read the element at the new `len` (the read does not erase the
slot). -/
def StaticArrayStack.pop_back (st : StaticArrayStack) : Option Nat × StaticArrayStack :=
  if st.len = 0 then
    (none, st)
  else
    (some (st.arr.getD (st.len - 1) 0), { st with len := st.len - 1 })

/-- `AreaFrameAllocator`: the allocator state. -/
structure AreaFrameAllocator where
  next_free_frame : Frame
  current_area : Option PhysicalMemoryArea
  available : VectorArray PhysicalMemoryArea
  occupied : VectorArray PhysicalMemoryArea
  freed_frame_list : StaticArrayStack
  first_allocated_frame : Nat
deriving DecidableEq, Repr

/-- The filter used by `select_next_area` on the available list:
`area.typ == 1 && Frame::containing_address(base_addr + size_in_bytes - 1)
>= self.next_free_frame` (frames compare by number). -/
def qualifies (next_free_frame : Nat) (area : PhysicalMemoryArea) : Bool :=
  area.typ == 1 &&
    decide (next_free_frame ≤
      (Frame.containing_address (area.base_addr + area.size_in_bytes - 1)).number)

/-- Rust's `Iterator::min_by_key`: the first element with minimal key, or
`none` on an empty iterator. -/
def minByKey (key : α → Nat) : List α → Option α
  | [] => none
  | x :: xs =>
    match minByKey key xs with
    | none => some x
    | some y => if key x ≤ key y then some x else some y

/-- `AreaFrameAllocator::select_next_area`: set `current_area` to the
qualifying available region of minimum `base_addr` (both representations
run the same filter over the logical elements), then, if an area was
chosen and its start frame exceeds `next_free_frame`, jump the bump
pointer forward to that start. -/
def select_next_area (s : AreaFrameAllocator) : AreaFrameAllocator :=
  match minByKey (fun area => area.base_addr)
      (s.available.elems.filter (qualifies s.next_free_frame.number)) with
  | some area =>
    if s.next_free_frame.number < (Frame.containing_address area.base_addr).number then
      { s with current_area := some area,
               next_free_frame := Frame.containing_address area.base_addr }
    else
      { s with current_area := some area }
  | none => { s with current_area := none }

/-- `AreaFrameAllocator::new`: initial state (bump pointer at frame 0, both
region lists in array mode, empty freed list, sentinel 0) followed by
`select_next_area`.  The source wraps the result in `Ok`, never failing. -/
def AreaFrameAllocator.new (available : List PhysicalMemoryArea) (avail_len : Nat)
    (occupied : List PhysicalMemoryArea) (occ_len : Nat) : AreaFrameAllocator :=
  select_next_area
    { next_free_frame := Frame.containing_address 0
      current_area := none
      available := .Array avail_len available
      occupied := .Array occ_len occupied
      freed_frame_list := .new
      first_allocated_frame := 0 }

/-- One scan of the occupied list as in `skip_occupied_frames` /
`in_occupided_area`: find the first occupied area whose frame range
`[containing_address(base_addr), containing_address(base_addr +
size_in_bytes)]` contains `f`, returning that range's upper frame number. -/
def findOccupied (occ : List PhysicalMemoryArea) (f : Nat) : Option Nat :=
  match occ with
  | [] => none
  | area :: rest =>
    let start := Frame.containing_address area.base_addr
    let e := Frame.containing_address (area.base_addr + area.size_in_bytes)
    if start.number ≤ f ∧ f ≤ e.number then some e.number else findOccupied rest f

/-- The upper frame number `containing_address(base_addr + size_in_bytes)`
of an occupied area, as computed by the source's scans. -/
def occupiedEnd (area : PhysicalMemoryArea) : Nat :=
  (Frame.containing_address (area.base_addr + area.size_in_bytes)).number

/-- The largest `occupiedEnd` over a list of occupied areas; bounds how far
`skip_occupied_frames` can ever advance the bump pointer. -/
def maxEnd : List PhysicalMemoryArea → Nat
  | [] => 0
  | area :: rest => max (occupiedEnd area) (maxEnd rest)

/-- The rerun loop of `skip_occupied_frames`, fuelled: while some occupied
area contains the pointer, set it one past that area's upper frame and
rerun.  The fuel only bounds the number of reruns; `skipNext` supplies a
provably sufficient amount. -/
def skipNextFuel : Nat → List PhysicalMemoryArea → Nat → Nat
  | 0, _, f => f
  | fuel + 1, occ, f =>
    match findOccupied occ f with
    | none => f
    | some e => skipNextFuel fuel occ (e + 1)

/-- The final bump-pointer value computed by `skip_occupied_frames`:
`maxEnd occ + 2` reruns always suffice (each rerun strictly advances the
pointer and no rerun moves it beyond `maxEnd occ + 1`). -/
def skipNext (occ : List PhysicalMemoryArea) (f : Nat) : Nat :=
  skipNextFuel (maxEnd occ + 2) occ f

/-- `AreaFrameAllocator::skip_occupied_frames`: advance `next_free_frame`
past every occupied area containing it (both representations scan the same
logical elements). -/
def skip_occupied_frames (s : AreaFrameAllocator) : AreaFrameAllocator :=
  { s with next_free_frame := ⟨skipNext s.occupied.elems s.next_free_frame.number⟩ }

/-- `AreaFrameAllocator::in_occupided_area` (sic): whether `frame` lies in
`[containing_address(base_addr), containing_address(base_addr +
size_in_bytes)]` for some occupied area. -/
def in_occupided_area (s : AreaFrameAllocator) (frame : Frame) : Bool :=
  s.occupied.elems.any fun area =>
    decide ((Frame.containing_address area.base_addr).number ≤ frame.number ∧
      frame.number ≤ occupiedEnd area)

/-- `AreaFrameAllocator::allocate_frame`, fuelled: pop from the freed list
when requested and possible; otherwise bump-allocate from the current area,
first skipping occupied frames, switching areas (and retrying) when the
current area is exhausted.  The fuel only bounds the area-switch recursion;
`allocate_frame` supplies one unit per available region plus one, which the
recursion (strictly shrinking the set of qualifying regions each time)
never exceeds. -/
def allocate_frame_aux : Nat → AreaFrameAllocator → Bool → Option Frame × AreaFrameAllocator
  | 0, s, _ => (none, s)
  | fuel + 1, s, use_freed_frames =>
    if use_freed_frames = true ∧ 0 < s.freed_frame_list.len then
      match s.freed_frame_list.pop_back with
      | (some frame_number, fl) => (some ⟨frame_number⟩, { s with freed_frame_list := fl })
      | (none, fl) => (none, { s with freed_frame_list := fl })
    else
      match s.current_area with
      | some area =>
        if (skip_occupied_frames s).next_free_frame.number >
            (Frame.containing_address (area.base_addr + area.size_in_bytes - 1)).number then
          allocate_frame_aux fuel (select_next_area (skip_occupied_frames s)) false
        else
          (some ⟨(skip_occupied_frames s).next_free_frame.number⟩,
            { skip_occupied_frames s with
                next_free_frame := ⟨(skip_occupied_frames s).next_free_frame.number + 1⟩,
                first_allocated_frame :=
                  if (skip_occupied_frames s).first_allocated_frame = 0 then
                    (skip_occupied_frames s).next_free_frame.number
                  else
                    (skip_occupied_frames s).first_allocated_frame })
      | none => (none, s)

/-- `AreaFrameAllocator::allocate_frame` with its fuel instantiated. -/
def allocate_frame (s : AreaFrameAllocator) (use_freed_frames : Bool) :
    Option Frame × AreaFrameAllocator :=
  allocate_frame_aux (s.available.elems.length + 1) s use_freed_frames

/-- `AreaFrameAllocator::deallocate_frame`: a no-op when the frame is in an
occupied area or equals the first-allocated-frame sentinel; otherwise
decrement the bump pointer when the frame number equals it, else push the
frame number onto the freed list.  The source's `Frame -= 1` on `usize` is
modelled as truncated `Nat` subtraction. -/
def deallocate_frame (s : AreaFrameAllocator) (frame : Frame) : AreaFrameAllocator :=
  if in_occupided_area s frame = false ∧ frame.number ≠ s.first_allocated_frame then
    if frame.number = s.next_free_frame.number then
      { s with next_free_frame := ⟨s.next_free_frame.number - 1⟩ }
    else
      { s with freed_frame_list := s.freed_frame_list.push_back frame.number }
  else
    s

/-- `AreaFrameAllocator::add_area`: append to the available or occupied
list; in array mode, fails with "array is already full" (state unchanged)
when `count` has reached the backing array's length. -/
def add_area (s : AreaFrameAllocator) (area : PhysicalMemoryArea) (available : Bool) :
    Except String Unit × AreaFrameAllocator :=
  match if available then s.available else s.occupied with
  | VectorArray.Array count arr =>
    if count < arr.length then
      (Except.ok (),
        if available then
          { s with available := VectorArray.Array (count + 1) (arr.set count area) }
        else
          { s with occupied := VectorArray.Array (count + 1) (arr.set count area) })
    else
      (Except.error "array is already full", s)
  | VectorArray.Vector v =>
    (Except.ok (),
      if available then { s with available := VectorArray.Vector (v ++ [area]) }
      else { s with occupied := VectorArray.Vector (v ++ [area]) })

/-- `AreaFrameAllocator::alloc_ready`: upgrade both region lists to vector
mode. -/
def alloc_ready (s : AreaFrameAllocator) : AreaFrameAllocator :=
  { s with available := s.available.upgrade_to_vector,
           occupied := s.occupied.upgrade_to_vector }

/-- Outcome of the contiguity-checking loop inside `allocate_frames`:
every frame so far contiguous (`ok`), a single allocation failed (`oom`),
or a non-contiguous frame forces a from-scratch retry (`retry`). -/
inductive ContigRes where
  | ok (s : AreaFrameAllocator)
  | oom (s : AreaFrameAllocator)
  | retry (s : AreaFrameAllocator)

/-- The `for i in 1..num_frames` loop of `allocate_frames`: allocate the
next frame (never from the freed list) and check its start address is
exactly `i` pages past the first frame's. -/
def contig_loop (first_frame_paddr num_frames : Nat) (i : Nat) (s : AreaFrameAllocator) :
    ContigRes :=
  if _h : i < num_frames then
    match allocate_frame s false with
    | (some f, s1) =>
      if f.start_address = first_frame_paddr + i * PAGE_SIZE then
        contig_loop first_frame_paddr num_frames (i + 1) s1
      else
        .retry s1
    | (none, s1) => .oom s1
  else
    .ok s
termination_by num_frames - i

/-- `AreaFrameAllocator::allocate_frames`, fuelled: `num_frames == 0` yields
`None` immediately; otherwise allocate a first frame and run the contiguity
loop, retrying from scratch (consuming fuel, which only bounds the number of
retries) on a non-contiguous frame, and giving up on out-of-memory.  On
success, the inclusive range `[first, first + num_frames - 1]`. -/
def allocate_frames_aux : Nat → AreaFrameAllocator → Nat → Option FrameRange × AreaFrameAllocator
  | 0, s, _ => (none, s)
  | fuel + 1, s, num_frames =>
    if num_frames = 0 then (none, s)
    else
      match allocate_frame s false with
      | (some first_frame, s1) =>
        match contig_loop first_frame.start_address num_frames 1 s1 with
        | .ok s2 =>
          (some ⟨first_frame, ⟨first_frame.number + (num_frames - 1)⟩⟩, s2)
        | .retry s2 => allocate_frames_aux fuel s2 num_frames
        | .oom s2 => (none, s2)
      | (none, s1) => (none, s1)

/-- `AreaFrameAllocator::allocate_frames` with its retry fuel instantiated
(any positive amount reproduces the `num_frames == 0` early return; the
bound chosen dominates the frames reachable before memory runs out). -/
def allocate_frames (s : AreaFrameAllocator) (num_frames : Nat) :
    Option FrameRange × AreaFrameAllocator :=
  allocate_frames_aux (maxEnd s.available.elems + s.available.elems.length + 2) s num_frames

/-- A sequence of `n` single-frame allocations with `use_freed_frames =
false`, collecting the frames actually returned (ignoring `None` results)
and the final state. -/
def run_allocs : Nat → AreaFrameAllocator → List Frame × AreaFrameAllocator
  | 0, s => ([], s)
  | n + 1, s =>
    match allocate_frame s false with
    | (some f, s1) => (f :: (run_allocs n s1).1, (run_allocs n s1).2)
    | (none, s1) => run_allocs n s1

/-! Helper lemmas about the occupied-region scan and the skip loop. -/

theorem findOccupied_some {occ : List PhysicalMemoryArea} {f e : Nat}
    (h : findOccupied occ f = some e) : f ≤ e ∧ e ≤ maxEnd occ := by
  induction occ with
  | nil => simp [findOccupied] at h
  | cons area rest ih =>
    rw [findOccupied] at h
    split at h
    · rename_i hc
      cases h
      exact ⟨hc.2, by simp [maxEnd, occupiedEnd, le_max_left]⟩
    · obtain ⟨h1, h2⟩ := ih h
      exact ⟨h1, le_trans h2 (by simp [maxEnd, le_max_right])⟩

theorem findOccupied_eq_none {occ : List PhysicalMemoryArea} {f : Nat} :
    findOccupied occ f = none ↔
      ∀ area ∈ occ, ¬((Frame.containing_address area.base_addr).number ≤ f ∧
        f ≤ occupiedEnd area) := by
  induction occ with
  | nil => simp [findOccupied]
  | cons area rest ih =>
    rw [findOccupied]
    split
    · rename_i hc
      exact iff_of_false (by simp)
        (fun hall => (hall area (List.mem_cons_self area rest)) hc)
    · rename_i hc
      simp only [ih, List.mem_cons]
      constructor
      · rintro hall b (rfl | hb)
        · exact hc
        · exact hall b hb
      · intro hall b hb
        exact hall b (Or.inr hb)

theorem skipNextFuel_ge (fuel : Nat) :
    ∀ (occ : List PhysicalMemoryArea) (f : Nat), f ≤ skipNextFuel fuel occ f := by
  induction fuel with
  | zero => intro occ f; simp [skipNextFuel]
  | succ n ih =>
    intro occ f
    rw [skipNextFuel]
    cases h : findOccupied occ f with
    | none => exact le_refl f
    | some e =>
      have := (findOccupied_some h).1
      exact le_trans (by omega) (ih occ (e + 1))

theorem skipNextFuel_none (fuel : Nat) :
    ∀ (occ : List PhysicalMemoryArea) (f : Nat), maxEnd occ + 1 - f < fuel →
      findOccupied occ (skipNextFuel fuel occ f) = none := by
  induction fuel with
  | zero => intro occ f h; omega
  | succ n ih =>
    intro occ f h
    rw [skipNextFuel]
    cases hfo : findOccupied occ f with
    | none => exact hfo
    | some e =>
      obtain ⟨h1, h2⟩ := findOccupied_some hfo
      exact ih occ (e + 1) (by omega)

theorem skipNextFuel_stable (fuel : Nat) :
    ∀ (fuel' : Nat) (occ : List PhysicalMemoryArea) (f : Nat),
      maxEnd occ + 1 - f < fuel → maxEnd occ + 1 - f < fuel' →
      skipNextFuel fuel occ f = skipNextFuel fuel' occ f := by
  induction fuel with
  | zero => intro fuel' occ f h _; omega
  | succ n ih =>
    intro fuel' occ f h h'
    cases fuel' with
    | zero => omega
    | succ m =>
      rw [skipNextFuel, skipNextFuel]
      cases hfo : findOccupied occ f with
      | none => rfl
      | some e =>
        obtain ⟨h1, h2⟩ := findOccupied_some hfo
        exact ih m occ (e + 1) (by omega) (by omega)

theorem skipNext_ge (occ : List PhysicalMemoryArea) (f : Nat) : f ≤ skipNext occ f :=
  skipNextFuel_ge _ occ f

theorem skipNext_none (occ : List PhysicalMemoryArea) (f : Nat) :
    findOccupied occ (skipNext occ f) = none :=
  skipNextFuel_none _ occ f (by omega)

/-! Helper lemmas about `minByKey` and `select_next_area`. -/

theorem minByKey_eq_none {key : α → Nat} {l : List α} :
    minByKey key l = none ↔ l = [] := by
  cases l with
  | nil => simp [minByKey]
  | cons a rest =>
    simp only [minByKey]
    cases hm : minByKey key rest with
    | none => simp
    | some y => by_cases hk : key a ≤ key y <;> simp [hk]

theorem minByKey_mem {key : α → Nat} : ∀ {l : List α} {x : α},
    minByKey key l = some x → x ∈ l := by
  intro l
  induction l with
  | nil => intro x h; simp [minByKey] at h
  | cons a rest ih =>
    intro x h
    rw [minByKey] at h
    cases hm : minByKey key rest with
    | none =>
      simp only [hm] at h
      obtain rfl : a = x := Option.some.inj h
      exact List.mem_cons_self _ _
    | some y =>
      simp only [hm] at h
      by_cases hk : key a ≤ key y
      · rw [if_pos hk] at h
        obtain rfl : a = x := Option.some.inj h
        exact List.mem_cons_self _ _
      · rw [if_neg hk] at h
        obtain rfl : y = x := Option.some.inj h
        exact List.mem_cons_of_mem _ (ih hm)

theorem minByKey_le {key : α → Nat} : ∀ {l : List α} {x : α},
    minByKey key l = some x → ∀ y ∈ l, key x ≤ key y := by
  intro l
  induction l with
  | nil => intro x h; simp [minByKey] at h
  | cons a rest ih =>
    intro x h z hz
    rw [minByKey] at h
    cases hm : minByKey key rest with
    | none =>
      simp only [hm] at h
      obtain rfl : a = x := Option.some.inj h
      rcases List.mem_cons.mp hz with rfl | hz'
      · exact le_refl _
      · have : rest = [] := minByKey_eq_none.mp hm
        subst this
        simp at hz'
    | some y =>
      simp only [hm] at h
      by_cases hk : key a ≤ key y
      · rw [if_pos hk] at h
        obtain rfl : a = x := Option.some.inj h
        rcases List.mem_cons.mp hz with rfl | hz'
        · exact le_refl _
        · exact le_trans hk (ih hm z hz')
      · rw [if_neg hk] at h
        obtain rfl : y = x := Option.some.inj h
        rcases List.mem_cons.mp hz with rfl | hz'
        · omega
        · exact ih hm z hz'

theorem select_next_area_occupied (s : AreaFrameAllocator) :
    (select_next_area s).occupied = s.occupied := by
  rw [select_next_area]
  split
  · split <;> rfl
  · rfl

theorem select_next_area_ge (s : AreaFrameAllocator) :
    s.next_free_frame.number ≤ (select_next_area s).next_free_frame.number := by
  rw [select_next_area]
  split
  · split
    · rename_i hlt; exact le_of_lt hlt
    · exact le_refl _
  · exact le_refl _

/-! The behavioural specification of `allocate_frame` with `use_freed_frames
= false`: the bump pointer never moves backward, the occupied list is
untouched, and a returned frame is at least the incoming bump pointer, is
immediately followed by the new bump pointer, and lies in no occupied
area's scan range. -/

theorem allocate_frame_aux_spec : ∀ (fuel : Nat) (s : AreaFrameAllocator),
    s.next_free_frame.number ≤ (allocate_frame_aux fuel s false).2.next_free_frame.number ∧
    (allocate_frame_aux fuel s false).2.occupied = s.occupied ∧
    ∀ f, (allocate_frame_aux fuel s false).1 = some f →
      s.next_free_frame.number ≤ f.number ∧
      (allocate_frame_aux fuel s false).2.next_free_frame.number = f.number + 1 ∧
      findOccupied s.occupied.elems f.number = none := by
  intro fuel
  induction fuel with
  | zero =>
    intro s
    simp [allocate_frame_aux]
  | succ n ih =>
    intro s
    have hcond : ¬(false = true ∧ 0 < s.freed_frame_list.len) := by simp
    rw [allocate_frame_aux, if_neg hcond]
    have hskip_next : s.next_free_frame.number ≤
        (skip_occupied_frames s).next_free_frame.number :=
      skipNext_ge s.occupied.elems s.next_free_frame.number
    split
    · -- a current area exists
      split
      · -- current area exhausted: switch area and retry
        obtain ⟨ih1, ih2, ih3⟩ := ih (select_next_area (skip_occupied_frames s))
        have hsel_next := select_next_area_ge (skip_occupied_frames s)
        have hsel_occ := select_next_area_occupied (skip_occupied_frames s)
        refine ⟨le_trans (le_trans hskip_next hsel_next) ih1, ?_, ?_⟩
        · rw [ih2, hsel_occ]; rfl
        · intro f hf
          obtain ⟨g1, g2, g3⟩ := ih3 f hf
          refine ⟨le_trans (le_trans hskip_next hsel_next) g1, g2, ?_⟩
          rw [hsel_occ] at g3
          exact g3
      · -- bump-allocate the skipped-to frame
        refine ⟨by simpa using Nat.le_succ_of_le hskip_next, rfl, ?_⟩
        intro f hf
        have hfeq : (⟨(skip_occupied_frames s).next_free_frame.number⟩ : Frame) = f :=
          Option.some.inj hf
        subst hfeq
        refine ⟨hskip_next, rfl, ?_⟩
        exact skipNext_none s.occupied.elems s.next_free_frame.number
    · -- no current area: out of memory
      simp

theorem allocate_frame_spec (s : AreaFrameAllocator) :
    s.next_free_frame.number ≤ (allocate_frame s false).2.next_free_frame.number ∧
    (allocate_frame s false).2.occupied = s.occupied ∧
    ∀ f, (allocate_frame s false).1 = some f →
      s.next_free_frame.number ≤ f.number ∧
      (allocate_frame s false).2.next_free_frame.number = f.number + 1 ∧
      findOccupied s.occupied.elems f.number = none :=
  allocate_frame_aux_spec _ s

theorem run_allocs_spec : ∀ (N : Nat) (s : AreaFrameAllocator),
    s.next_free_frame.number ≤ (run_allocs N s).2.next_free_frame.number ∧
    (run_allocs N s).2.occupied = s.occupied ∧
    (∀ f ∈ (run_allocs N s).1, s.next_free_frame.number ≤ f.number ∧
        findOccupied s.occupied.elems f.number = none) ∧
    (run_allocs N s).1.Pairwise (fun a b => a.number < b.number) := by
  intro N
  induction N with
  | zero => intro s; simp [run_allocs]
  | succ n ih =>
    intro s
    have hs := allocate_frame_spec s
    cases hr : allocate_frame s false with
    | mk r s1 =>
      rw [hr] at hs
      obtain ⟨h1, h2, h3⟩ := hs
      obtain ⟨i1, i2, i3, i4⟩ := ih s1
      cases r with
      | some f =>
        obtain ⟨g1, g2, g3⟩ := h3 f rfl
        simp only [run_allocs, hr]
        refine ⟨le_trans h1 i1, h2 ▸ i2, ?_, ?_⟩
        · intro g hg
          rcases List.mem_cons.mp hg with rfl | hg'
          · exact ⟨g1, g3⟩
          · obtain ⟨j1, j2⟩ := i3 g hg'
            rw [h2] at j2
            exact ⟨le_trans h1 j1, j2⟩
        · rw [List.pairwise_cons]
          refine ⟨?_, i4⟩
          intro g hg'
          have hj := (i3 g hg').1
          have g2' : s1.next_free_frame.number = f.number + 1 := g2
          omega
      | none =>
        simp only [run_allocs, hr]
        refine ⟨le_trans h1 i1, h2 ▸ i2, ?_, i4⟩
        intro g hg
        obtain ⟨j1, j2⟩ := i3 g hg
        rw [h2] at j2
        exact ⟨le_trans h1 j1, j2⟩

/-! Concrete instances: the spec's worked example (section 8).  The `new`
constructor takes 32-element arrays plus explicit counts, so the lists are
padded with zero descriptors beyond the count. -/

def pad31 : List PhysicalMemoryArea := List.replicate 31 ⟨0, 0, 0⟩

def c1_available : List PhysicalMemoryArea := ⟨0, 0x4000, 1⟩ :: pad31

def c1_occupied : List PhysicalMemoryArea := ⟨0x1000, 0x1000, 0⟩ :: pad31

/-- The spec's example allocator: one available region `[0x0, 0x4000)` of
type 1 and one occupied region `[0x1000, 0x2000)`, page size `0x1000`. -/
def c1_alloc : AreaFrameAllocator := AreaFrameAllocator.new c1_available 1 c1_occupied 1

/-- An allocator over the same available region with no occupied region. -/
def c2_alloc : AreaFrameAllocator := AreaFrameAllocator.new c1_available 1 pad31 0

/-- The state of `c2_alloc` after three single-frame allocations (frames
0, 1, 2; bump pointer 3; sentinel 1 — the second allocation overwrote the
still-zero sentinel). -/
def c2_s3 : AreaFrameAllocator :=
  (allocate_frame (allocate_frame (allocate_frame c2_alloc false).2 false).2 false).2

/-! The claims. -/

/-- C1: the claim states that on the spec's example (available
`{0x0, 0x4000, typ 1}`, occupied `{0x1000, 0x1000}`, page size `0x1000`)
repeated `allocate_frame(false)` returns frames 0, 2, 3 and then `None`.
The code instead computes the occupied range's end as
`containing_address(base + size)` (frame 2, one past the region's true
inclusive end frame 1) and jumps to `end + 1`, so it returns 0, then 3,
and is out of memory on the third call: the claim fails on the second and
third calls. -/
theorem c1_code_behavior :
    (allocate_frame c1_alloc false).1 = some ⟨0⟩ ∧
    (allocate_frame (allocate_frame c1_alloc false).2 false).1 = some ⟨3⟩ ∧
    (allocate_frame (allocate_frame (allocate_frame c1_alloc false).2 false).2 false).1
      = none ∧
    (run_allocs 4 c1_alloc).1 = [⟨0⟩, ⟨3⟩] := by decide

/-- C2: the claim states that deallocating the most recently
bump-allocated frame `f` (with `next_free_frame = f + 1`, `f` unoccupied
and not the sentinel) decrements the bump pointer without pushing, and an
immediate re-allocation returns `f` with the free-stack length unchanged.
In `c2_s3` frame 2 is exactly that frame (bump pointer 3, sentinel 1, no
occupied region), yet the code — which compares `f` against
`next_free_frame` itself rather than the frame below it — pushes 2 onto
the free stack (length 0 to 1), leaves the bump pointer at 3, and the
following `allocate_frame(false)` returns frame 3, not 2. -/
theorem c2_code_behavior :
    c2_s3.next_free_frame = ⟨3⟩ ∧
    c2_s3.first_allocated_frame = 1 ∧
    c2_s3.freed_frame_list.len = 0 ∧
    in_occupided_area c2_s3 ⟨2⟩ = false ∧
    deallocate_frame c2_s3 ⟨2⟩ =
      { c2_s3 with freed_frame_list := c2_s3.freed_frame_list.push_back 2 } ∧
    (deallocate_frame c2_s3 ⟨2⟩).next_free_frame = ⟨3⟩ ∧
    (deallocate_frame c2_s3 ⟨2⟩).freed_frame_list.len = 1 ∧
    (allocate_frame (deallocate_frame c2_s3 ⟨2⟩) false).1 = some ⟨3⟩ := by decide

/-- C3: over any sequence of single-frame allocations (`use_freed_frames =
false`, no intervening deallocation), the frames actually returned are
strictly increasing (hence without repeats), and none lies in the
inclusive frame range `[containing_address(base_addr),
containing_address(base_addr + size_in_bytes - 1)]` of any occupied
region. -/
theorem c3_allocations_increasing_and_avoid_occupied (N : Nat) (s : AreaFrameAllocator) :
    (run_allocs N s).1.Pairwise (fun a b => a.number < b.number) ∧
    ∀ f ∈ (run_allocs N s).1, ∀ area ∈ s.occupied.elems,
      ¬((Frame.containing_address area.base_addr).number ≤ f.number ∧
        f.number ≤ (Frame.containing_address
          (area.base_addr + area.size_in_bytes - 1)).number) := by
  obtain ⟨-, -, hmem, hpw⟩ := run_allocs_spec N s
  refine ⟨hpw, ?_⟩
  intro f hf area harea hcontra
  have hnone := (hmem f hf).2
  rw [findOccupied_eq_none] at hnone
  refine hnone area harea ⟨hcontra.1, le_trans hcontra.2 ?_⟩
  simp only [Frame.containing_address, occupiedEnd]
  exact Nat.div_le_div_right (Nat.sub_le _ _)

/-- Witness for C3 at the spec's example: two allocations from `c1_alloc`
return `[frame 0, frame 3]`, pairwise increasing, and frame 0 avoids the
occupied region's inclusive frame range `[1, 1]`. -/
theorem c3_witness :
    (run_allocs 2 c1_alloc).1.Pairwise (fun a b => a.number < b.number) ∧
    ¬((Frame.containing_address (0x1000 : Nat)).number ≤ (0 : Nat) ∧
      (0 : Nat) ≤ (Frame.containing_address (0x1000 + 0x1000 - 1)).number) :=
  ⟨(c3_allocations_increasing_and_avoid_occupied 2 c1_alloc).1,
    (c3_allocations_increasing_and_avoid_occupied 2 c1_alloc).2
      ⟨0⟩ (by decide) ⟨0x1000, 0x1000, 0⟩ (by decide)⟩

/-- C4: for a frame `f` outside every occupied scan range and different
from the sentinel, `deallocate_frame` decrements the bump pointer (stack
untouched) exactly when `f.number` equals the current
`next_free_frame.number` — the next not-yet-allocated frame — and
otherwise pushes `f.number` onto the free stack (bump pointer
untouched). -/
theorem c4_deallocate_frame_cases (s : AreaFrameAllocator) (f : Frame)
    (h1 : in_occupided_area s f = false)
    (h2 : f.number ≠ s.first_allocated_frame) :
    (f.number = s.next_free_frame.number →
      deallocate_frame s f =
        { s with next_free_frame := ⟨s.next_free_frame.number - 1⟩ }) ∧
    (f.number ≠ s.next_free_frame.number →
      deallocate_frame s f =
        { s with freed_frame_list := s.freed_frame_list.push_back f.number }) := by
  rw [deallocate_frame, if_pos ⟨h1, h2⟩]
  constructor
  · intro h3
    rw [if_pos h3]
  · intro h3
    rw [if_neg h3]

/-- Witness for C4 at `c2_s3` (bump pointer 3, sentinel 1): deallocating
frame 3 — which equals the bump pointer — decrements it to 2. -/
theorem c4_witness :
    deallocate_frame c2_s3 ⟨3⟩ =
      { c2_s3 with next_free_frame := ⟨c2_s3.next_free_frame.number - 1⟩ } :=
  (c4_deallocate_frame_cases c2_s3 ⟨3⟩ (by decide) (by decide)).1 (by decide)

/-- C5: `select_next_area` chooses, among available regions of type 1
whose inclusive end address's containing frame is at least
`next_free_frame`, one of minimum base address (`none` exactly when no
region qualifies); afterwards the bump pointer equals the maximum of its
old value and the chosen region's start frame — it jumps forward to the
start when that is greater and never moves backward (staying put when no
region qualifies). -/
theorem c5_select_next_area_spec (s : AreaFrameAllocator) :
    (∀ area, (select_next_area s).current_area = some area →
      area ∈ s.available.elems ∧ area.typ = 1 ∧
      s.next_free_frame.number ≤
        (Frame.containing_address (area.base_addr + area.size_in_bytes - 1)).number ∧
      (∀ b ∈ s.available.elems, b.typ = 1 →
        s.next_free_frame.number ≤
          (Frame.containing_address (b.base_addr + b.size_in_bytes - 1)).number →
        area.base_addr ≤ b.base_addr) ∧
      (select_next_area s).next_free_frame.number =
        max s.next_free_frame.number (Frame.containing_address area.base_addr).number) ∧
    ((select_next_area s).current_area = none →
      (∀ b ∈ s.available.elems, ¬(b.typ = 1 ∧
        s.next_free_frame.number ≤
          (Frame.containing_address (b.base_addr + b.size_in_bytes - 1)).number)) ∧
      (select_next_area s).next_free_frame = s.next_free_frame) ∧
    s.next_free_frame.number ≤ (select_next_area s).next_free_frame.number := by
  have hq : ∀ b, qualifies s.next_free_frame.number b = true ↔
      (b.typ = 1 ∧ s.next_free_frame.number ≤
        (Frame.containing_address (b.base_addr + b.size_in_bytes - 1)).number) := by
    intro b
    simp [qualifies]
  rw [select_next_area]
  split
  · rename_i area hmin
    have hmem := minByKey_mem hmin
    rw [List.mem_filter] at hmem
    have hmin_le := minByKey_le hmin
    split
    · rename_i hlt
      refine ⟨?_, ?_, le_of_lt hlt⟩
      · intro a ha
        obtain rfl : area = a := Option.some.inj ha
        refine ⟨hmem.1, ((hq area).mp hmem.2).1, ((hq area).mp hmem.2).2, ?_, ?_⟩
        · intro b hb hb1 hb2
          exact hmin_le b (List.mem_filter.mpr ⟨hb, (hq b).mpr ⟨hb1, hb2⟩⟩)
        · exact (Nat.max_eq_right (le_of_lt hlt)).symm
      · intro hnone
        exact absurd hnone (by simp)
    · rename_i hge
      refine ⟨?_, ?_, le_refl _⟩
      · intro a ha
        obtain rfl : area = a := Option.some.inj ha
        refine ⟨hmem.1, ((hq area).mp hmem.2).1, ((hq area).mp hmem.2).2, ?_, ?_⟩
        · intro b hb hb1 hb2
          exact hmin_le b (List.mem_filter.mpr ⟨hb, (hq b).mpr ⟨hb1, hb2⟩⟩)
        · exact (Nat.max_eq_left (not_lt.mp hge)).symm
      · intro hnone
        exact absurd hnone (by simp)
  · rename_i hmin
    have hnil := minByKey_eq_none.mp hmin
    refine ⟨?_, ?_, le_refl _⟩
    · intro a ha
      exact absurd ha (by simp)
    · intro _
      refine ⟨?_, rfl⟩
      intro b hb hcontra
      have : qualifies s.next_free_frame.number b = true := (hq b).mpr hcontra
      have hbmem : b ∈ List.filter (qualifies s.next_free_frame.number)
          s.available.elems := List.mem_filter.mpr ⟨hb, this⟩
      rw [hnil] at hbmem
      simp at hbmem

/-- State just before the initial `select_next_area` of the spec's example
allocator (the argument `new` passes to it). -/
def c5_state : AreaFrameAllocator :=
  { next_free_frame := ⟨0⟩
    current_area := none
    available := .Array 1 c1_available
    occupied := .Array 1 c1_occupied
    freed_frame_list := .new
    first_allocated_frame := 0 }

/-- Witness for C5: on `c5_state`, `select_next_area` picks the region
`{0x0, 0x4000, 1}`; it qualifies, is of minimal base address, and the bump
pointer becomes the maximum of its old value and the region's start. -/
theorem c5_witness :
    (⟨0, 0x4000, 1⟩ : PhysicalMemoryArea) ∈ c5_state.available.elems ∧
    (⟨0, 0x4000, 1⟩ : PhysicalMemoryArea).typ = 1 ∧
    c5_state.next_free_frame.number ≤
      (Frame.containing_address (0 + 0x4000 - 1)).number ∧
    (0 : Nat) ≤ (0 : Nat) ∧
    (select_next_area c5_state).next_free_frame.number =
      max c5_state.next_free_frame.number (Frame.containing_address 0).number := by
  have h := (c5_select_next_area_spec c5_state).1 ⟨0, 0x4000, 1⟩ (by decide)
  exact ⟨h.1, h.2.1, h.2.2.1, h.2.2.2.1 ⟨0, 0x4000, 1⟩ (by decide) (by decide)
    (by decide), h.2.2.2.2⟩

/-- C6: the skip-occupied scan terminates on every allocator state: the
pointer it computes lies in no occupied area's scan range, the pointer
only advances, and any fuel of at least `maxEnd + 2` reruns — a bound
determined by the finitely many occupied regions' bounded end addresses —
yields the same, stabilized result. -/
theorem c6_skip_occupied_frames_terminates (s : AreaFrameAllocator) :
    findOccupied s.occupied.elems (skip_occupied_frames s).next_free_frame.number
      = none ∧
    s.next_free_frame.number ≤ (skip_occupied_frames s).next_free_frame.number ∧
    ∀ fuel, maxEnd s.occupied.elems + 2 ≤ fuel →
      skipNextFuel fuel s.occupied.elems s.next_free_frame.number =
        (skip_occupied_frames s).next_free_frame.number := by
  refine ⟨skipNext_none _ _, skipNext_ge _ _, ?_⟩
  intro fuel hf
  exact skipNextFuel_stable fuel (maxEnd s.occupied.elems + 2) s.occupied.elems
    s.next_free_frame.number (by omega) (by omega)

/-- The spec's example allocator with its bump pointer moved into the
occupied region (frame 1). -/
def c6_state : AreaFrameAllocator := { c1_alloc with next_free_frame := ⟨1⟩ }

/-- Witness for C6 at `c6_state`: the skip loop stabilizes (fuel 10
suffices, as does any other amount at least `maxEnd + 2 = 4`) on a pointer
outside the occupied region, at least the old pointer. -/
theorem c6_witness :
    findOccupied c6_state.occupied.elems
      (skip_occupied_frames c6_state).next_free_frame.number = none ∧
    c6_state.next_free_frame.number ≤
      (skip_occupied_frames c6_state).next_free_frame.number ∧
    skipNextFuel 10 c6_state.occupied.elems c6_state.next_free_frame.number =
      (skip_occupied_frames c6_state).next_free_frame.number :=
  ⟨(c6_skip_occupied_frames_terminates c6_state).1,
    (c6_skip_occupied_frames_terminates c6_state).2.1,
    (c6_skip_occupied_frames_terminates c6_state).2.2 10 (by decide)⟩

/-- C7: adding a region to a list in array mode whose count has reached
the backing array's capacity fails with the capacity error and leaves the
whole allocator unchanged; after `alloc_ready` upgrades the list to vector
mode — preserving exactly the first `count` elements in order — the same
`add_area` call succeeds and appends the region. -/
theorem c7_add_area_capacity (s : AreaFrameAllocator) (a : PhysicalMemoryArea)
    (c : Nat) (arr : List PhysicalMemoryArea) (available : Bool)
    (h : (if available then s.available else s.occupied) = VectorArray.Array c arr)
    (hfull : ¬ c < arr.length) :
    add_area s a available = (Except.error "array is already full", s) ∧
    (if available then (alloc_ready s).available else (alloc_ready s).occupied) =
      VectorArray.Vector (arr.take c) ∧
    (add_area (alloc_ready s) a available).1 = Except.ok () ∧
    (if available then (add_area (alloc_ready s) a available).2.available
      else (add_area (alloc_ready s) a available).2.occupied).elems =
      arr.take c ++ [a] := by
  cases available with
  | true =>
    rw [if_pos rfl] at h
    refine ⟨?_, ?_, ?_, ?_⟩ <;>
      simp [add_area, alloc_ready, h, hfull, VectorArray.upgrade_to_vector,
        VectorArray.elems]
  | false =>
    rw [if_neg (by simp)] at h
    refine ⟨?_, ?_, ?_, ?_⟩ <;>
      simp [add_area, alloc_ready, h, hfull, VectorArray.upgrade_to_vector,
        VectorArray.elems]

def c7_area : PhysicalMemoryArea := ⟨0x5000, 0x1000, 1⟩

def c7_full : List PhysicalMemoryArea := List.replicate 32 ⟨0, 0, 0⟩

/-- An allocator whose available list is a full (count 32, capacity 32)
array. -/
def c7_state : AreaFrameAllocator :=
  { next_free_frame := ⟨0⟩
    current_area := none
    available := .Array 32 c7_full
    occupied := .Array 0 pad31
    freed_frame_list := .new
    first_allocated_frame := 0 }

/-- Witness for C7: the 33rd addition to `c7_state`'s available list fails
and changes nothing; after `alloc_ready`, the same addition succeeds and
appends. -/
theorem c7_witness :
    add_area c7_state c7_area true = (Except.error "array is already full", c7_state) ∧
    (alloc_ready c7_state).available = VectorArray.Vector (c7_full.take 32) ∧
    (add_area (alloc_ready c7_state) c7_area true).1 = Except.ok () ∧
    (add_area (alloc_ready c7_state) c7_area true).2.available.elems =
      c7_full.take 32 ++ [c7_area] := by
  have h := c7_add_area_capacity c7_state c7_area 32 c7_full true rfl (by decide)
  exact ⟨h.1, h.2.1, h.2.2.1, h.2.2.2⟩

/-- C8: a push onto a full free stack (length equal to the backing array's
capacity, 128 in the allocator) drops the value and changes nothing — so a
`deallocate_frame` that reaches the push path leaves the whole allocator
unchanged; below capacity, push appends and an immediate pop returns the
pushed value with the length restored (LIFO), and popping an empty stack
reports `none`. -/
theorem c8_free_stack_spec (st : StaticArrayStack) (v : Nat)
    (s : AreaFrameAllocator) (f : Frame) :
    (¬ st.len < st.arr.length → st.push_back v = st) ∧
    (st.len < st.arr.length →
      (st.push_back v).pop_back =
        (some v, { arr := st.arr.set st.len v, len := st.len })) ∧
    (st.len = 0 → st.pop_back = (none, st)) ∧
    (¬ s.freed_frame_list.len < s.freed_frame_list.arr.length →
      in_occupided_area s f = false → f.number ≠ s.first_allocated_frame →
      f.number ≠ s.next_free_frame.number →
      deallocate_frame s f = s) := by
    refine ⟨?_, ?_, ?_, ?_⟩
    · intro hfull
      rw [StaticArrayStack.push_back, if_neg hfull]
    · intro hlt
      rw [StaticArrayStack.push_back, if_pos hlt, StaticArrayStack.pop_back]
      simp [List.getElem?_set_eq_of_lt v hlt]
    · intro hzero
      rw [StaticArrayStack.pop_back, if_pos hzero]
    · intro hfull hocc hsent hnext
      rw [deallocate_frame, if_pos ⟨hocc, hsent⟩, if_neg hnext,
        StaticArrayStack.push_back, if_neg hfull]

/-- A free stack at its 128-entry capacity. -/
def c8_full_stack : StaticArrayStack := { arr := List.replicate 128 0, len := 128 }

/-- An allocator whose free stack is full, with frame 5 unoccupied, not the
sentinel (9), and not the bump pointer (7). -/
def c8_state : AreaFrameAllocator :=
  { next_free_frame := ⟨7⟩
    current_area := none
    available := .Array 1 c1_available
    occupied := .Array 1 c1_occupied
    freed_frame_list := c8_full_stack
    first_allocated_frame := 9 }

/-- Witness for C8: pushing onto the full stack changes nothing;
push-then-pop on the empty stack returns the pushed value; popping the
empty stack reports `none`; `deallocate_frame` of frame 5 on `c8_state`
(full stack) changes nothing. -/
theorem c8_witness :
    c8_full_stack.push_back 5 = c8_full_stack ∧
    (StaticArrayStack.new.push_back 5).pop_back =
      (some 5, { arr := StaticArrayStack.new.arr.set StaticArrayStack.new.len 5,
                 len := StaticArrayStack.new.len }) ∧
    StaticArrayStack.new.pop_back = (none, StaticArrayStack.new) ∧
    deallocate_frame c8_state ⟨5⟩ = c8_state :=
  ⟨(c8_free_stack_spec c8_full_stack 5 c8_state ⟨5⟩).1 (by decide),
    (c8_free_stack_spec StaticArrayStack.new 5 c8_state ⟨5⟩).2.1 (by decide),
    (c8_free_stack_spec StaticArrayStack.new 5 c8_state ⟨5⟩).2.2.1 (by decide),
    (c8_free_stack_spec c8_full_stack 5 c8_state ⟨5⟩).2.2.2 (by decide) (by decide)
      (by decide) (by decide)⟩

/-- C9: deallocating a frame that lies inside the inclusive frame range of
some occupied region, or that equals the (non-zero) first-allocated-frame
sentinel, leaves the allocator — free stack and bump pointer included —
unchanged. -/
theorem c9_deallocate_frame_noop (s : AreaFrameAllocator) (f : Frame)
    (h : (∃ area ∈ s.occupied.elems,
            (Frame.containing_address area.base_addr).number ≤ f.number ∧
            f.number ≤ (Frame.containing_address
              (area.base_addr + area.size_in_bytes - 1)).number) ∨
         (f.number = s.first_allocated_frame ∧ s.first_allocated_frame ≠ 0)) :
    deallocate_frame s f = s := by
  rw [deallocate_frame]
  rcases h with ⟨area, hmem, hlo, hhi⟩ | ⟨hsent, -⟩
  · have hocc : in_occupided_area s f = true := by
      rw [in_occupided_area, List.any_eq_true]
      refine ⟨area, hmem, ?_⟩
      rw [decide_eq_true_eq]
      refine ⟨hlo, le_trans hhi ?_⟩
      simp only [Frame.containing_address, occupiedEnd]
      exact Nat.div_le_div_right (Nat.sub_le _ _)
    rw [if_neg]
    rintro ⟨hfalse, -⟩
    rw [hocc] at hfalse
    cases hfalse
  · rw [if_neg]
    rintro ⟨-, hne⟩
    exact hne hsent

/-- Witness for C9 on the spec's example allocator: frame 1 lies in the
occupied region's inclusive frame range `[1, 1]`, so deallocating it
changes nothing. -/
theorem c9_witness : deallocate_frame c1_alloc ⟨1⟩ = c1_alloc :=
  c9_deallocate_frame_noop c1_alloc ⟨1⟩
    (Or.inl ⟨⟨0x1000, 0x1000, 0⟩, by decide, by decide, by decide⟩)

/-- C10: `allocate_frames 0` returns `None` ("no frames", not a one-frame
range) and leaves the allocator state unchanged. -/
theorem c10_allocate_frames_zero (s : AreaFrameAllocator) :
    allocate_frames s 0 = (none, s) := by
  rw [allocate_frames,
    show maxEnd s.available.elems + s.available.elems.length + 2 =
      (maxEnd s.available.elems + s.available.elems.length + 1) + 1 from rfl,
    allocate_frames_aux, if_pos rfl]

end Theseus
